import Mathlib

/-!
Verification of the Cloudbet API client (`cloudbet.go`).

The Go code is embedded shallowly:
* JSON texts are `String`s and are parsed by an executable JSON reader
  (`parseValue`) modelling the grammar of `encoding/json`; `decodeFirstValue`
  models `json.Decoder.Decode` (reads one value, ignores trailing data)
  and `unmarshalValue` models `json.Unmarshal` (only whitespace may
  follow the value).
* Go `float64` values are modelled as exact rationals (`GoFloat`);
  rounding to binary64 is not modelled.  Every numeric value appearing in
  the claims (12.50, 0) is exactly representable in binary64, so the
  rational model agrees with the Go code on them.
* The HTTP exchange is an oracle `transport : Request → Except String
  Response` supplied by the environment; a `Response` carries the status
  code, the status text and the fully read body.  A transport error
  covers both `Client.Do` failures and body-read failures.
* `time.Now()` is modelled by passing the call-time local date as an
  explicit `GoDate` argument.
-/

namespace Cloudbet

/-- The algorithm of Euclid with explicit fuel, so that it reduces inside the
kernel; the fuel is always sufficient because every step strictly
decreases the first argument. -/
def natGcdF : Nat → Nat → Nat → Nat
  | 0, _, b => b
  | f + 1, a, b => if a = 0 then b else natGcdF f (b % a) a

/-- Greatest common divisor via `natGcdF` with sufficient fuel. -/
def natGcd (a b : Nat) : Nat := natGcdF (a + 1) a b

/-- An exact rational in lowest terms, modelling Go `float64` values
without binary64 rounding.  Values are only built through `mkGoRat`, so
structural equality coincides with rational equality. -/
structure GoRat where
  num : Int
  den : Nat
deriving Repr, DecidableEq, Inhabited

/-- Build a `GoRat` in lowest terms from a numerator and a denominator. -/
def mkGoRat (n : Int) (d : Nat) : GoRat :=
  if d = 0 then ⟨0, 1⟩
  else
    let g := natGcd n.natAbs d
    ⟨n / (g : Int), d / g⟩

/-- Value of a decimal literal: `m / 10^fracLen * 10^e`, exactly. -/
def mkDecimal (m : Int) (fracLen : Nat) (e : Int) : GoRat :=
  if 0 ≤ e then mkGoRat (m * (10 : Int) ^ e.toNat) (10 ^ fracLen)
  else mkGoRat m (10 ^ fracLen * 10 ^ (-e).toNat)

/-- JSON values, with numbers kept as exact rationals. -/
inductive JSON where
  | null : JSON
  | bool : Bool → JSON
  | num : GoRat → JSON
  | str : String → JSON
  | arr : List JSON → JSON
  | obj : List (String × JSON) → JSON
deriving Repr, Inhabited

/-- Whitespace characters of the JSON grammar (RFC 8259). -/
def isJsonWs (c : Char) : Bool :=
  c = ' ' || c = '\t' || c = '\n' || c = '\r'

/-- Drop leading JSON whitespace. -/
def skipWs : List Char → List Char
  | [] => []
  | c :: cs => if isJsonWs c then skipWs cs else c :: cs

/-- Remove a literal prefix from a character list, when present. -/
def stripChars : List Char → List Char → Option (List Char)
  | [], cs => some cs
  | _, [] => none
  | p :: ps, c :: cs => if p = c then stripChars ps cs else none

/-- Decimal digit test. -/
def isDigitChar (c : Char) : Bool := '0' ≤ c && c ≤ '9'

/-- Numeric value of a decimal digit. -/
def digitVal (c : Char) : Nat := c.toNat - '0'.toNat

/-- Take the longest run of decimal digits. -/
def takeDigits : List Char → List Char × List Char
  | [] => ([], [])
  | c :: cs =>
    if isDigitChar c then
      let (ds, rest) := takeDigits cs
      (c :: ds, rest)
    else ([], c :: cs)

/-- Value of a digit run, most significant first. -/
def digitsToNat (ds : List Char) : Nat :=
  ds.foldl (fun acc c => 10 * acc + digitVal c) 0

/-- Hexadecimal digit value, when the character is one. -/
def hexVal (c : Char) : Option Nat :=
  if isDigitChar c then some (digitVal c)
  else
    let letters := ['a', 'b', 'c', 'd', 'e', 'f']
    let lower := if c.toNat ≥ 'a'.toNat then c else Char.ofNat (c.toNat + 32)
    match letters.indexOf? lower with
    | some i => some (10 + i)
    | none => none

/-- Read the body of a JSON string (after the opening quote), handling the
escape sequences of `encoding/json` (surrogate-pair combination is not
modelled; an invalid `\u` scalar falls back to the default of `Char.ofNat`). -/
def parseStringBody : Nat → List Char → Except String (List Char × List Char)
  | 0, _ => .error "json: string too long"
  | _, [] => .error "unexpected end of JSON input"
  | fuel + 1, c :: cs =>
    if c = '"' then .ok ([], cs)
    else if c = '\\' then
      match cs with
      | [] => .error "unexpected end of JSON input"
      | e :: cs' =>
        let simple : Option Char :=
          if e = '"' then some '"'
          else if e = '\\' then some '\\'
          else if e = '/' then some '/'
          else if e = 'b' then some (Char.ofNat 8)
          else if e = 'f' then some (Char.ofNat 12)
          else if e = 'n' then some '\n'
          else if e = 'r' then some '\r'
          else if e = 't' then some '\t'
          else none
        match simple with
        | some ch =>
          match parseStringBody fuel cs' with
          | .ok (s, rest) => .ok (ch :: s, rest)
          | .error m => .error m
        | none =>
          if e = 'u' then
            match cs' with
            | h1 :: h2 :: h3 :: h4 :: cs'' =>
              match hexVal h1, hexVal h2, hexVal h3, hexVal h4 with
              | some a, some b, some c1, some d =>
                let code := ((a * 16 + b) * 16 + c1) * 16 + d
                match parseStringBody fuel cs'' with
                | .ok (s, rest) => .ok (Char.ofNat code :: s, rest)
                | .error m => .error m
              | _, _, _, _ => .error "invalid character in \\u hexadecimal escape"
            | _ => .error "unexpected end of JSON input"
          else .error "invalid character in string escape code"
    else if c.toNat < 32 then .error "invalid character in string literal"
    else
      match parseStringBody fuel cs with
      | .ok (s, rest) => .ok (c :: s, rest)
      | .error m => .error m

/-- Read a JSON number starting at the given characters, RFC 8259 grammar
(`-? int frac? exp?` with no leading zeros), returning its exact value. -/
def parseNumber (cs : List Char) : Except String (GoRat × List Char) :=
  let (neg, cs1) :=
    match cs with
    | '-' :: rest => (true, rest)
    | _ => (false, cs)
  match cs1 with
  | [] => .error "unexpected end of JSON input"
  | c :: _ =>
    if ¬ isDigitChar c then .error "invalid character in numeric literal"
    else
      let (intDs, cs2) := takeDigits cs1
      if intDs.length > 1 && intDs.headD '0' = '0' then
        .error "invalid number literal with leading zero"
      else
        let (fracDs, cs3) :=
          match cs2 with
          | '.' :: rest =>
            let (ds, r) := takeDigits rest
            (ds, r)
          | _ => ([], cs2)
        if cs2 ≠ cs3 && fracDs = [] then .error "invalid character after decimal point"
        else
          let expRes : Except String (Int × List Char) :=
            match cs3 with
            | 'e' :: rest | 'E' :: rest =>
              let (esign, rest1) :=
                match rest with
                | '+' :: r => ((1 : Int), r)
                | '-' :: r => ((-1 : Int), r)
                | _ => ((1 : Int), rest)
              let (eds, rest2) := takeDigits rest1
              if eds = [] then .error "invalid character in exponent"
              else .ok (esign * (digitsToNat eds : Int), rest2)
            | _ => .ok (0, cs3)
          match expRes with
          | .error m => .error m
          | .ok (e, rest) =>
            let m : Int :=
              (digitsToNat intDs * 10 ^ fracDs.length + digitsToNat fracDs : Nat)
            let signed : Int := if neg then -m else m
            .ok (mkDecimal signed fracDs.length e, rest)

mutual

/-- Read one JSON value from the input.  Fuel bounds the recursion depth;
callers supply more fuel than the input length, so fuel never runs out
before the input does. -/
def parseValue : Nat → List Char → Except String (JSON × List Char)
  | 0, _ => .error "json: exceeded recursion budget"
  | fuel + 1, cs =>
    match skipWs cs with
    | [] => .error "unexpected end of JSON input"
    | c :: rest =>
      if c = 'n' then
        match stripChars ['u', 'l', 'l'] rest with
        | some rest' => .ok (.null, rest')
        | none => .error "invalid character looking for beginning of value"
      else if c = 't' then
        match stripChars ['r', 'u', 'e'] rest with
        | some rest' => .ok (.bool true, rest')
        | none => .error "invalid character looking for beginning of value"
      else if c = 'f' then
        match stripChars ['a', 'l', 's', 'e'] rest with
        | some rest' => .ok (.bool false, rest')
        | none => .error "invalid character looking for beginning of value"
      else if c = '"' then
        match parseStringBody (rest.length + 1) rest with
        | .ok (s, rest') => .ok (.str (String.mk s), rest')
        | .error m => .error m
      else if c = '[' then
        match skipWs rest with
        | ']' :: rest' => .ok (.arr [], rest')
        | rest1 => parseElements fuel rest1 []
      else if c = '\x7b' then
        match skipWs rest with
        | '\x7d' :: rest' => .ok (.obj [], rest')
        | rest1 => parseMembers fuel rest1 []
      else
        match parseNumber (c :: rest) with
        | .ok (q, rest') => .ok (.num q, rest')
        | .error m => .error m

/-- Read the elements of a JSON array after its opening bracket. -/
def parseElements : Nat → List Char → List JSON → Except String (JSON × List Char)
  | 0, _, _ => .error "json: exceeded recursion budget"
  | fuel + 1, cs, acc =>
    match parseValue fuel cs with
    | .error m => .error m
    | .ok (v, rest) =>
      match skipWs rest with
      | ',' :: rest' => parseElements fuel rest' (v :: acc)
      | ']' :: rest' => .ok (.arr (v :: acc).reverse, rest')
      | _ => .error "invalid character after array element"

/-- Read the members of a JSON object after its opening brace. -/
def parseMembers : Nat → List Char → List (String × JSON) →
    Except String (JSON × List Char)
  | 0, _, _ => .error "json: exceeded recursion budget"
  | fuel + 1, cs, acc =>
    match skipWs cs with
    | '"' :: rest =>
      match parseStringBody (rest.length + 1) rest with
      | .error m => .error m
      | .ok (key, rest1) =>
        match skipWs rest1 with
        | ':' :: rest2 =>
          match parseValue fuel rest2 with
          | .error m => .error m
          | .ok (v, rest3) =>
            match skipWs rest3 with
            | ',' :: rest4 => parseMembers fuel rest4 ((String.mk key, v) :: acc)
            | '\x7d' :: rest4 => .ok (.obj ((String.mk key, v) :: acc).reverse, rest4)
            | _ => .error "invalid character after object key:value pair"
        | _ => .error "invalid character after object key"
    | _ => .error "invalid character looking for beginning of object key string"

end

/-- Model of `json.Decoder.Decode` on a fully read body: reads the first JSON
value and ignores anything after it; an empty (or all-whitespace) body is the
EOF error of the decoder. -/
def decodeFirstValue (body : String) : Except String JSON :=
  match parseValue (2 * body.data.length + 2) body.data with
  | .ok (v, _) => .ok v
  | .error m => .error m

/-- Model of `json.Unmarshal`: reads one JSON value and requires that only
whitespace follow it. -/
def unmarshalValue (body : String) : Except String JSON :=
  match parseValue (2 * body.data.length + 2) body.data with
  | .ok (v, rest) =>
    match skipWs rest with
    | [] => .ok v
    | _ => .error "invalid character after top-level value"
  | .error m => .error m

/-- Go `float64` results of `strconv.ParseFloat`: an exact rational, or one
of the special values.  Rounding to binary64 is not modelled. -/
inductive GoFloat where
  | finite : GoRat → GoFloat
  | inf : Bool → GoFloat
  | nan : GoFloat
deriving Repr, DecidableEq, Inhabited

/-- Lower-case an ASCII letter (used for the case-insensitive matching of Go). -/
def lowerAscii (c : Char) : Char :=
  if 'A' ≤ c && c ≤ 'Z' then Char.ofNat (c.toNat + 32) else c

/-- Case-insensitive ASCII equality of strings, the Go function `strings.EqualFold`
restricted to ASCII (all keys in this API are ASCII). -/
def eqFold (a b : String) : Bool :=
  a.data.map lowerAscii = b.data.map lowerAscii

/-- Model of `strconv.ParseFloat(s, 64)`, returning the value together with
the error as Go does (on a syntax error the value is 0).  The decimal
grammar is: optional sign, digits with an optional fractional part (at
least one digit overall), optional decimal exponent; and the special
spellings inf/infinity/nan, case-insensitively.  The hexadecimal-float
and underscore-separator forms of Go and its binary64 range/rounding behaviour
are not modelled; the claims only involve plain decimal amounts. -/
def goParseFloat (s : String) : GoFloat × Option String :=
  let err := (GoFloat.finite ⟨0, 1⟩,
    some ("strconv.ParseFloat: parsing \"" ++ s ++ "\": invalid syntax"))
  let (neg, cs1) :=
    match s.data with
    | '-' :: rest => (true, rest)
    | '+' :: rest => (false, rest)
    | rest => (false, rest)
  let lower := cs1.map lowerAscii
  if lower = ['i', 'n', 'f'] || lower = ['i', 'n', 'f', 'i', 'n', 'i', 't', 'y'] then
    (GoFloat.inf neg, none)
  else if lower = ['n', 'a', 'n'] then
    (GoFloat.nan, none)
  else
    let (intDs, cs2) := takeDigits cs1
    let (fracDs, cs3) :=
      match cs2 with
      | '.' :: rest =>
        let (ds, r) := takeDigits rest
        (ds, r)
      | _ => ([], cs2)
    if intDs = [] && fracDs = [] then err
    else
      let m : Int :=
        (digitsToNat intDs * 10 ^ fracDs.length + digitsToNat fracDs : Nat)
      let signed : Int := if neg then -m else m
      match cs3 with
      | [] => (GoFloat.finite (mkDecimal signed fracDs.length 0), none)
      | 'e' :: rest | 'E' :: rest =>
        let (esign, rest1) :=
          match rest with
          | '+' :: r => ((1 : Int), r)
          | '-' :: r => ((-1 : Int), r)
          | _ => ((1 : Int), rest)
        let (eds, rest2) := takeDigits rest1
        if eds = [] || rest2 ≠ [] then err
        else
          (GoFloat.finite
            (mkDecimal signed fracDs.length (esign * (digitsToNat eds : Int))), none)
      | _ => err

/-!
Decoding of JSON values into the Go structures of `cloudbet.go`, following
`encoding/json` semantics: unknown object keys are ignored; a field name is
matched case-insensitively with the last matching member winning; a missing
member leaves the field at its zero value; JSON `null` leaves the target at
its zero value; a type mismatch is an error.  Two simplifications, both
irrelevant to the claims: Go records a type error for a field and keeps
decoding the remaining fields (still returning a non-nil error) where this
model stops at the first bad field, and Go additionally requires integer
literal syntax (rejecting `1e2`) for `int` fields where this model accepts
any mathematically integral number.
-/

/-- Find the JSON member a Go struct field with the given tag name receives:
the last member whose key matches the name case-insensitively. -/
def jField (fields : List (String × JSON)) (name : String) : Option JSON :=
  (fields.filter (fun p => eqFold p.1 name)).getLast?.map (fun p => p.2)

/-- Decode the member for one struct field: missing means the zero value. -/
def fieldD (fields : List (String × JSON)) (name : String)
    (d : JSON → Except String α) (zero : α) : Except String α :=
  match jField fields name with
  | none => .ok zero
  | some v => d v

/-- Decode a JSON value into a Go `string` field. -/
def decodeString : JSON → Except String String
  | .str s => .ok s
  | .null => .ok ""
  | _ => .error "json: cannot unmarshal value into Go value of type string"

/-- Decode a JSON value into a Go `float64` field (modelled exactly). -/
def decodeQ : JSON → Except String GoRat
  | .num q => .ok q
  | .null => .ok ⟨0, 1⟩
  | _ => .error "json: cannot unmarshal value into Go value of type float64"

/-- Decode a JSON value into a Go `int` field (64-bit range). -/
def decodeInt : JSON → Except String Int
  | .num q =>
    if q.den = 1 && -(2 ^ 63) ≤ q.num && q.num < 2 ^ 63 then .ok q.num
    else .error "json: cannot unmarshal number into Go value of type int"
  | .null => .ok 0
  | _ => .error "json: cannot unmarshal value into Go value of type int"

/-- Decode every element of a list, failing on the first bad one. -/
def decodeAll (d : JSON → Except String α) : List JSON → Except String (List α)
  | [] => .ok []
  | x :: xs => do
    let a ← d x
    let as ← decodeAll d xs
    .ok (a :: as)

/-- Decode a JSON value into a Go slice field (`null` gives the nil slice). -/
def decodeList (d : JSON → Except String α) : JSON → Except String (List α)
  | .arr xs => decodeAll d xs
  | .null => .ok []
  | _ => .error "json: cannot unmarshal value into Go slice"

/-- Parsed `time.Time` as produced by RFC 3339 parsing: the broken-down
fields exactly as written, the fractional-second digits verbatim, and the
zone offset in minutes (`Z` gives offset 0). -/
structure GoTime where
  year : Nat
  month : Nat
  day : Nat
  hour : Nat
  minute : Nat
  second : Nat
  fracDigits : List Char
  offsetMinutes : Int
deriving Repr, DecidableEq, Inhabited

/-- Zero value of `time.Time`: January 1, year 1, 00:00:00 UTC. -/
def GoTime.zeroValue : GoTime := ⟨1, 1, 1, 0, 0, 0, [], 0⟩

/-- Gregorian leap-year rule. -/
def isLeapYear (y : Nat) : Bool :=
  (y % 4 = 0 && y % 100 ≠ 0) || y % 400 = 0

/-- Number of days of the month in the year. -/
def daysInMonth (y m : Nat) : Nat :=
  if m = 2 then (if isLeapYear y then 29 else 28)
  else if m = 4 || m = 6 || m = 9 || m = 11 then 30
  else 31

/-- Read exactly `n` decimal digits as a number. -/
def readFixedDigits : Nat → List Char → Option (Nat × List Char)
  | 0, cs => some (0, cs)
  | _ + 1, [] => none
  | n + 1, c :: cs =>
    if isDigitChar c then
      match readFixedDigits n cs with
      | some (v, rest) => some (digitVal c * 10 ^ n + v, rest)
      | none => none
    else none

/-- Parse an RFC 3339 timestamp `YYYY-MM-DDThh:mm:ss[.frac](Z|±hh:mm)` with
range validation, as `time.Time.UnmarshalJSON` does. -/
def parseRFC3339 (s : String) : Except String GoTime :=
  let bad : Except String GoTime :=
    .error ("parsing time \"" ++ s ++ "\" as RFC3339: cannot parse")
  match readFixedDigits 4 s.data with
  | none => bad
  | some (y, r1) =>
    match r1 with
    | '-' :: r2 =>
      match readFixedDigits 2 r2 with
      | none => bad
      | some (mo, r3) =>
        match r3 with
        | '-' :: r4 =>
          match readFixedDigits 2 r4 with
          | none => bad
          | some (d, r5) =>
            match r5 with
            | 'T' :: r6 =>
              match readFixedDigits 2 r6 with
              | none => bad
              | some (h, r7) =>
                match r7 with
                | ':' :: r8 =>
                  match readFixedDigits 2 r8 with
                  | none => bad
                  | some (mi, r9) =>
                    match r9 with
                    | ':' :: r10 =>
                      match readFixedDigits 2 r10 with
                      | none => bad
                      | some (sec, r11) =>
                        let (frac, r12) :=
                          match r11 with
                          | '.' :: rest =>
                            let (ds, r) := takeDigits rest
                            (ds, if ds = [] then '.' :: rest else r)
                          | _ => ([], r11)
                        let offs : Option Int :=
                          match r12 with
                          | ['Z'] => some 0
                          | sign :: rest =>
                            if sign = '+' || sign = '-' then
                              match readFixedDigits 2 rest with
                              | some (oh, ':' :: rest1) =>
                                match readFixedDigits 2 rest1 with
                                | some (om, []) =>
                                  if oh ≤ 23 && om ≤ 59 then
                                    some ((if sign = '-' then -1 else 1) *
                                      ((oh : Int) * 60 + om))
                                  else none
                                | _ => none
                              | _ => none
                            else none
                          | _ => none
                        match offs with
                        | none => bad
                        | some off =>
                          if 1 ≤ mo && mo ≤ 12 && 1 ≤ d && d ≤ daysInMonth y mo
                              && h ≤ 23 && mi ≤ 59 && sec ≤ 59 then
                            .ok ⟨y, mo, d, h, mi, sec, frac, off⟩
                          else bad
                    | _ => bad
                | _ => bad
            | _ => bad
        | _ => bad
    | _ => bad

/-- Decode a JSON value into a `time.Time` field: a quoted RFC 3339 string,
or `null` for the zero time; anything else is an error. -/
def decodeGoTime : JSON → Except String GoTime
  | .str s => parseRFC3339 s
  | .null => .ok GoTime.zeroValue
  | _ => .error "Time.UnmarshalJSON: input is not a JSON string"

/-- Go struct `Balance` (json tag `amount`). -/
structure Balance where
  Amount : String
deriving Repr, DecidableEq, Inhabited

/-- Decode a `Balance` from JSON. -/
def decodeBalance : JSON → Except String Balance
  | .obj fs => do
    let a ← fieldD fs "amount" decodeString ""
    .ok ⟨a⟩
  | .null => .ok default
  | _ => .error "json: cannot unmarshal value into Go value of type Balance"

/-- Go struct `PlaceBetPayload`, the request body of `PlaceBet`. -/
structure PlaceBetPayload where
  PriceChange : String
  Currency : String
  EventId : String
  MarketURL : String
  Price : String
  UUID : String
  Stake : String
deriving Repr, DecidableEq, Inhabited

/-- Go struct `PlaceBetResponse`, the decoded body of a bet placement. -/
structure PlaceBetResponse where
  ReferenceID : String
  Price : String
  EventID : String
  MarketURL : String
  Side : String
  Currency : String
  Stake : String
  CreateTime : String
  Status : String
  ReturnAmount : String
  EventName : String
  SportsKey : String
  CompetitionID : String
  CategoryKey : String
  CustomerReference : String
  Error : String
deriving Repr, DecidableEq, Inhabited

/-- Decode a `PlaceBetResponse` from JSON, by the json tags of the source. -/
def decodePlaceBetResponse : JSON → Except String PlaceBetResponse
  | .obj fs => do
    let referenceId ← fieldD fs "referenceId" decodeString ""
    let price ← fieldD fs "price" decodeString ""
    let eventId ← fieldD fs "eventId" decodeString ""
    let marketUrl ← fieldD fs "marketUrl" decodeString ""
    let side ← fieldD fs "side" decodeString ""
    let currency ← fieldD fs "currency" decodeString ""
    let stake ← fieldD fs "stake" decodeString ""
    let createTime ← fieldD fs "createTime" decodeString ""
    let status ← fieldD fs "status" decodeString ""
    let returnAmount ← fieldD fs "returnAmount" decodeString ""
    let eventName ← fieldD fs "eventName" decodeString ""
    let sportsKey ← fieldD fs "sportsKey" decodeString ""
    let competitionId ← fieldD fs "competitionId" decodeString ""
    let categoryKey ← fieldD fs "categoryKey" decodeString ""
    let customerReference ← fieldD fs "customerReference" decodeString ""
    let e ← fieldD fs "error" decodeString ""
    .ok ⟨referenceId, price, eventId, marketUrl, side, currency, stake,
      createTime, status, returnAmount, eventName, sportsKey, competitionId,
      categoryKey, customerReference, e⟩
  | .null => .ok default
  | _ => .error "json: cannot unmarshal value into Go value of type PlaceBetResponse"

/-- Go struct `Sport` (fixtures side). -/
structure Sport where
  Name : String
  Key : String
deriving Repr, DecidableEq, Inhabited

/-- Decode a `Sport` from JSON. -/
def decodeSport : JSON → Except String Sport
  | .obj fs => do
    let n ← fieldD fs "name" decodeString ""
    let k ← fieldD fs "key" decodeString ""
    .ok ⟨n, k⟩
  | .null => .ok default
  | _ => .error "json: cannot unmarshal value into Go value of type Sport"

/-- Go struct `Category` (fixtures side). -/
structure Category where
  Name : String
  Key : String
deriving Repr, DecidableEq, Inhabited

/-- Decode a `Category` from JSON. -/
def decodeCategory : JSON → Except String Category
  | .obj fs => do
    let n ← fieldD fs "name" decodeString ""
    let k ← fieldD fs "key" decodeString ""
    .ok ⟨n, k⟩
  | .null => .ok default
  | _ => .error "json: cannot unmarshal value into Go value of type Category"

/-- Go struct `Home`, the fixtures home-team descriptor. -/
structure Home where
  Name : String
  Key : String
  Abbreviation : String
  Nationality : String
  ResearchID : String
deriving Repr, DecidableEq, Inhabited

/-- Decode a `Home` from JSON. -/
def decodeHome : JSON → Except String Home
  | .obj fs => do
    let n ← fieldD fs "name" decodeString ""
    let k ← fieldD fs "key" decodeString ""
    let ab ← fieldD fs "abbreviation" decodeString ""
    let na ← fieldD fs "nationality" decodeString ""
    let r ← fieldD fs "researchId" decodeString ""
    .ok ⟨n, k, ab, na, r⟩
  | .null => .ok default
  | _ => .error "json: cannot unmarshal value into Go value of type Home"

/-- Go struct `Away`, the fixtures away-team descriptor. -/
structure Away where
  Name : String
  Key : String
  Abbreviation : String
  Nationality : String
  ResearchID : String
deriving Repr, DecidableEq, Inhabited

/-- Decode an `Away` from JSON. -/
def decodeAway : JSON → Except String Away
  | .obj fs => do
    let n ← fieldD fs "name" decodeString ""
    let k ← fieldD fs "key" decodeString ""
    let ab ← fieldD fs "abbreviation" decodeString ""
    let na ← fieldD fs "nationality" decodeString ""
    let r ← fieldD fs "researchId" decodeString ""
    .ok ⟨n, k, ab, na, r⟩
  | .null => .ok default
  | _ => .error "json: cannot unmarshal value into Go value of type Away"

/-- Go struct `Players`, an empty placeholder. -/
structure Players where
deriving Repr, DecidableEq, Inhabited

/-- Decode a `Players`: any object or null; all keys are unknown. -/
def decodePlayers : JSON → Except String Players
  | .obj _ => .ok ⟨⟩
  | .null => .ok ⟨⟩
  | _ => .error "json: cannot unmarshal value into Go value of type Players"

/-- Go struct `Markets` (fixtures side), an empty placeholder. -/
structure Markets where
deriving Repr, DecidableEq, Inhabited

/-- Decode a `Markets`: any object or null; all keys are unknown. -/
def decodeMarkets : JSON → Except String Markets
  | .obj _ => .ok ⟨⟩
  | .null => .ok ⟨⟩
  | _ => .error "json: cannot unmarshal value into Go value of type Markets"

/-- Go struct `Events`, one fixture event (its `Type` field is spelled
`TypeTag` here because `Type` is reserved in Lean). -/
structure Events where
  ID : Int
  Home : Home
  Away : Away
  Players : Players
  Status : String
  Markets : Markets
  Name : String
  Key : String
  CutoffTime : GoTime
  TypeTag : String
deriving Repr, DecidableEq, Inhabited

/-- Decode an `Events` from JSON. -/
def decodeEvents : JSON → Except String Events
  | .obj fs => do
    let i ← fieldD fs "id" decodeInt 0
    let h ← fieldD fs "home" decodeHome default
    let a ← fieldD fs "away" decodeAway default
    let p ← fieldD fs "players" decodePlayers default
    let st ← fieldD fs "status" decodeString ""
    let m ← fieldD fs "markets" decodeMarkets default
    let n ← fieldD fs "name" decodeString ""
    let k ← fieldD fs "key" decodeString ""
    let ct ← fieldD fs "cutoffTime" decodeGoTime GoTime.zeroValue
    let ty ← fieldD fs "type" decodeString ""
    .ok ⟨i, h, a, p, st, m, n, k, ct, ty⟩
  | .null => .ok default
  | _ => .error "json: cannot unmarshal value into Go value of type Events"

/-- Go struct `Competitions`, one competition with its events. -/
structure Competitions where
  Name : String
  Key : String
  Sport : Sport
  Events : List Events
  Category : Category
deriving Repr, DecidableEq, Inhabited

/-- Decode a `Competitions` from JSON. -/
def decodeCompetitions : JSON → Except String Competitions
  | .obj fs => do
    let n ← fieldD fs "name" decodeString ""
    let k ← fieldD fs "key" decodeString ""
    let sp ← fieldD fs "sport" decodeSport default
    let ev ← fieldD fs "events" (decodeList decodeEvents) []
    let ca ← fieldD fs "category" decodeCategory default
    .ok ⟨n, k, sp, ev, ca⟩
  | .null => .ok default
  | _ => .error "json: cannot unmarshal value into Go value of type Competitions"

/-- Go struct `Fixtures`, the parsed fixtures response. -/
structure Fixtures where
  Competitions : List Competitions
deriving Repr, DecidableEq, Inhabited

/-- Decode a `Fixtures` from JSON. -/
def decodeFixtures : JSON → Except String Fixtures
  | .obj fs => do
    let cs ← fieldD fs "competitions" (decodeList decodeCompetitions) []
    .ok ⟨cs⟩
  | .null => .ok default
  | _ => .error "json: cannot unmarshal value into Go value of type Fixtures"

/-- Go struct `EventAway`, the away-team descriptor of a full event. -/
structure EventAway where
  Abbreviation : String
  Key : String
  Name : String
  Nationality : String
deriving Repr, DecidableEq, Inhabited

/-- Decode an `EventAway` from JSON. -/
def decodeEventAway : JSON → Except String EventAway
  | .obj fs => do
    let ab ← fieldD fs "abbreviation" decodeString ""
    let k ← fieldD fs "key" decodeString ""
    let n ← fieldD fs "name" decodeString ""
    let na ← fieldD fs "nationality" decodeString ""
    .ok ⟨ab, k, n, na⟩
  | .null => .ok default
  | _ => .error "json: cannot unmarshal value into Go value of type EventAway"

/-- Go struct `EventHome`, the home-team descriptor of a full event. -/
structure EventHome where
  Abbreviation : String
  Key : String
  Name : String
  Nationality : String
deriving Repr, DecidableEq, Inhabited

/-- Decode an `EventHome` from JSON. -/
def decodeEventHome : JSON → Except String EventHome
  | .obj fs => do
    let ab ← fieldD fs "abbreviation" decodeString ""
    let k ← fieldD fs "key" decodeString ""
    let n ← fieldD fs "name" decodeString ""
    let na ← fieldD fs "nationality" decodeString ""
    .ok ⟨ab, k, n, na⟩
  | .null => .ok default
  | _ => .error "json: cannot unmarshal value into Go value of type EventHome"

/-- Go struct `Competition`, the competition descriptor of a full event
(note: its `Category` field reuses the fixtures-side `Category`). -/
structure Competition where
  Category : Category
  Key : String
  Name : String
deriving Repr, DecidableEq, Inhabited

/-- Decode a `Competition` from JSON. -/
def decodeCompetition : JSON → Except String Competition
  | .obj fs => do
    let ca ← fieldD fs "category" decodeCategory default
    let k ← fieldD fs "key" decodeString ""
    let n ← fieldD fs "name" decodeString ""
    .ok ⟨ca, k, n⟩
  | .null => .ok default
  | _ => .error "json: cannot unmarshal value into Go value of type Competition"

/-- Go struct `Selections`, one betting selection (float64 fields are
modelled as exact rationals). -/
structure Selections where
  MaxStake : GoRat
  MinStake : GoRat
  Outcome : String
  Params : String
  Price : GoRat
  Probability : GoRat
  Side : String
  Status : String
deriving Repr, DecidableEq, Inhabited

/-- Decode a `Selections` from JSON. -/
def decodeSelections : JSON → Except String Selections
  | .obj fs => do
    let mx ← fieldD fs "maxStake" decodeQ ⟨0, 1⟩
    let mn ← fieldD fs "minStake" decodeQ ⟨0, 1⟩
    let o ← fieldD fs "outcome" decodeString ""
    let pa ← fieldD fs "params" decodeString ""
    let pr ← fieldD fs "price" decodeQ ⟨0, 1⟩
    let pb ← fieldD fs "probability" decodeQ ⟨0, 1⟩
    let si ← fieldD fs "side" decodeString ""
    let st ← fieldD fs "status" decodeString ""
    .ok ⟨mx, mn, o, pa, pr, pb, si, st⟩
  | .null => .ok default
  | _ => .error "json: cannot unmarshal value into Go value of type Selections"

/-- Go struct `AdditionalProp1`: a selection list plus a sequence counter. -/
structure AdditionalProp1 where
  Selections : List Selections
  Sequence : Int
deriving Repr, DecidableEq, Inhabited

/-- Decode an `AdditionalProp1` from JSON. -/
def decodeAdditionalProp1 : JSON → Except String AdditionalProp1
  | .obj fs => do
    let se ← fieldD fs "selections" (decodeList decodeSelections) []
    let sq ← fieldD fs "sequence" decodeInt 0
    .ok ⟨se, sq⟩
  | .null => .ok default
  | _ => .error "json: cannot unmarshal value into Go value of type AdditionalProp1"

/-- Go struct `AdditionalProp2`: layout and scores strings. -/
structure AdditionalProp2 where
  Layout : String
  Scores : String
deriving Repr, DecidableEq, Inhabited

/-- Decode an `AdditionalProp2` from JSON. -/
def decodeAdditionalProp2 : JSON → Except String AdditionalProp2
  | .obj fs => do
    let l ← fieldD fs "layout" decodeString ""
    let s ← fieldD fs "scores" decodeString ""
    .ok ⟨l, s⟩
  | .null => .ok default
  | _ => .error "json: cannot unmarshal value into Go value of type AdditionalProp2"

/-- Go struct `AdditionalProp3`: layout and scores strings. -/
structure AdditionalProp3 where
  Layout : String
  Scores : String
deriving Repr, DecidableEq, Inhabited

/-- Decode an `AdditionalProp3` from JSON. -/
def decodeAdditionalProp3 : JSON → Except String AdditionalProp3
  | .obj fs => do
    let l ← fieldD fs "layout" decodeString ""
    let s ← fieldD fs "scores" decodeString ""
    .ok ⟨l, s⟩
  | .null => .ok default
  | _ => .error "json: cannot unmarshal value into Go value of type AdditionalProp3"

/-- Go struct `EventMarkets`: three FIXED fields named `additionalProp1..3`,
not a generic string-keyed map. -/
structure EventMarkets where
  AdditionalProp1 : AdditionalProp1
  AdditionalProp2 : AdditionalProp2
  AdditionalProp3 : AdditionalProp3
deriving Repr, DecidableEq, Inhabited

/-- Decode an `EventMarkets` from JSON: only the three fixed keys are
consulted; every other key of the markets object is ignored. -/
def decodeEventMarkets : JSON → Except String EventMarkets
  | .obj fs => do
    let a1 ← fieldD fs "additionalProp1" decodeAdditionalProp1 default
    let a2 ← fieldD fs "additionalProp2" decodeAdditionalProp2 default
    let a3 ← fieldD fs "additionalProp3" decodeAdditionalProp3 default
    .ok ⟨a1, a2, a3⟩
  | .null => .ok default
  | _ => .error "json: cannot unmarshal value into Go value of type EventMarkets"

/-- Go struct `Opinion`, one market opinion. -/
structure Opinion where
  MarketKey : String
  Outcome : String
  Params : String
  Probability : GoRat
deriving Repr, DecidableEq, Inhabited

/-- Decode an `Opinion` from JSON. -/
def decodeOpinion : JSON → Except String Opinion
  | .obj fs => do
    let mk1 ← fieldD fs "marketKey" decodeString ""
    let o ← fieldD fs "outcome" decodeString ""
    let pa ← fieldD fs "params" decodeString ""
    let pb ← fieldD fs "probability" decodeQ ⟨0, 1⟩
    .ok ⟨mk1, o, pa, pb⟩
  | .null => .ok default
  | _ => .error "json: cannot unmarshal value into Go value of type Opinion"

/-- Go struct `Opinions`: the same three fixed `additionalProp` fields. -/
structure Opinions where
  AdditionalProp1 : AdditionalProp1
  AdditionalProp2 : AdditionalProp2
  AdditionalProp3 : AdditionalProp3
deriving Repr, DecidableEq, Inhabited

/-- Decode an `Opinions` from JSON. -/
def decodeOpinions : JSON → Except String Opinions
  | .obj fs => do
    let a1 ← fieldD fs "additionalProp1" decodeAdditionalProp1 default
    let a2 ← fieldD fs "additionalProp2" decodeAdditionalProp2 default
    let a3 ← fieldD fs "additionalProp3" decodeAdditionalProp3 default
    .ok ⟨a1, a2, a3⟩
  | .null => .ok default
  | _ => .error "json: cannot unmarshal value into Go value of type Opinions"

/-- Go struct `Metadata` of a full event. -/
structure Metadata where
  Opinion : List Opinion
  Opinions : Opinions
deriving Repr, DecidableEq, Inhabited

/-- Decode a `Metadata` from JSON. -/
def decodeMetadata : JSON → Except String Metadata
  | .obj fs => do
    let o ← fieldD fs "opinion" (decodeList decodeOpinion) []
    let os ← fieldD fs "opinions" decodeOpinions default
    .ok ⟨o, os⟩
  | .null => .ok default
  | _ => .error "json: cannot unmarshal value into Go value of type Metadata"

/-- Go struct `Settlement`: the same three fixed `additionalProp` fields. -/
structure Settlement where
  AdditionalProp1 : AdditionalProp1
  AdditionalProp2 : AdditionalProp2
  AdditionalProp3 : AdditionalProp3
deriving Repr, DecidableEq, Inhabited

/-- Decode a `Settlement` from JSON. -/
def decodeSettlement : JSON → Except String Settlement
  | .obj fs => do
    let a1 ← fieldD fs "additionalProp1" decodeAdditionalProp1 default
    let a2 ← fieldD fs "additionalProp2" decodeAdditionalProp2 default
    let a3 ← fieldD fs "additionalProp3" decodeAdditionalProp3 default
    .ok ⟨a1, a2, a3⟩
  | .null => .ok default
  | _ => .error "json: cannot unmarshal value into Go value of type Settlement"

/-- Go struct `Event`, the full single-event record (its `Type` field is
spelled `TypeTag` here because `Type` is reserved in Lean). -/
structure Event where
  Away : EventAway
  Competition : Competition
  CutoffTime : GoTime
  EndTime : GoTime
  GradingDuration : Int
  Home : EventHome
  ID : Int
  Key : String
  Markets : EventMarkets
  Metadata : Metadata
  Name : String
  ResultedTime : GoTime
  Sequence : Int
  Settlement : Settlement
  EventSport : Sport
  Status : String
  TypeTag : Int
deriving Repr, DecidableEq, Inhabited

/-- Decode an `Event` from JSON, by the json tags of the source. -/
def decodeEvent : JSON → Except String Event
  | .obj fs => do
    let aw ← fieldD fs "away" decodeEventAway default
    let co ← fieldD fs "competition" decodeCompetition default
    let ct ← fieldD fs "cutoffTime" decodeGoTime GoTime.zeroValue
    let et ← fieldD fs "endTime" decodeGoTime GoTime.zeroValue
    let gd ← fieldD fs "gradingDuration" decodeInt 0
    let ho ← fieldD fs "home" decodeEventHome default
    let i ← fieldD fs "id" decodeInt 0
    let k ← fieldD fs "key" decodeString ""
    let ma ← fieldD fs "markets" decodeEventMarkets default
    let me ← fieldD fs "metadata" decodeMetadata default
    let n ← fieldD fs "name" decodeString ""
    let rt ← fieldD fs "resultedTime" decodeGoTime GoTime.zeroValue
    let sq ← fieldD fs "sequence" decodeInt 0
    let se ← fieldD fs "settlement" decodeSettlement default
    let sp ← fieldD fs "sport" decodeSport default
    let st ← fieldD fs "status" decodeString ""
    let ty ← fieldD fs "type" decodeInt 0
    .ok ⟨aw, co, ct, et, gd, ho, i, k, ma, me, n, rt, sq, se, sp, st, ty⟩
  | .null => .ok default
  | _ => .error "json: cannot unmarshal value into Go value of type Event"

/-- Model of the Go `*http.Client`: only its configuration (the timeout set
at construction) is observable here. -/
structure HttpClient where
  TimeoutSeconds : Nat
deriving Repr, DecidableEq, Inhabited

/-- Go struct `APIClient`: base URL, API key and the HTTP client handle. -/
structure APIClient where
  BaseURL : String
  APIKey : String
  Client : HttpClient
deriving Repr, DecidableEq, Inhabited

/-- Model of `NewAPIClient`: production base URL, the given key, and a
fresh HTTP client with a 10 second timeout. -/
def NewAPIClient (apiKey : String) : APIClient :=
  { BaseURL := "https://sports-api.cloudbet.com"
    APIKey := apiKey
    Client := { TimeoutSeconds := 10 } }

/-- Escape one character of a JSON string as `encoding/json` does with its
default HTML escaping (`<`, `>`, `&` become `\u00XX`). -/
def escapeJsonChar (c : Char) : List Char :=
  if c = '"' then ['\\', '"']
  else if c = '\\' then ['\\', '\\']
  else if c = '\n' then ['\\', 'n']
  else if c = '\r' then ['\\', 'r']
  else if c = '\t' then ['\\', 't']
  else if c = '<' then "\\u003c".data
  else if c = '>' then "\\u003e".data
  else if c = '&' then "\\u0026".data
  else if c.toNat < 32 then
    "\\u00".data ++
      [(if c.toNat / 16 = 0 then '0' else '1'),
       (let d := c.toNat % 16
        if d < 10 then Char.ofNat ('0'.toNat + d) else Char.ofNat ('a'.toNat + d - 10))]
  else [c]

/-- Quote a string as a JSON string literal, Go style. -/
def jsonQuote (s : String) : String :=
  "\"" ++ String.mk (s.data.flatMap escapeJsonChar) ++ "\""

/-- Model of `json.Marshal` on a `PlaceBetPayload`: fields in declaration
order under their json tags.  Marshalling a struct of plain strings never
fails in Go, so this is total. -/
def marshalPlaceBetPayload (p : PlaceBetPayload) : String :=
  "\x7b\"acceptPriceChange\":" ++ jsonQuote p.PriceChange ++
  ",\"currency\":" ++ jsonQuote p.Currency ++
  ",\"eventId\":" ++ jsonQuote p.EventId ++
  ",\"marketUrl\":" ++ jsonQuote p.MarketURL ++
  ",\"price\":" ++ jsonQuote p.Price ++
  ",\"referenceId\":" ++ jsonQuote p.UUID ++
  ",\"stake\":" ++ jsonQuote p.Stake ++ "\x7d"

/-- An HTTP request as built by the client.  The `http.NewRequest` error
branch (rejection of URLs holding ASCII control characters by
`url.Parse`) is modelled in `GetTodayFixtures`, whose request-issuing
claim depends on it; in the other operations, whose judged claims are
conditional on a response or hold on that branch regardless, it is
collapsed into the other error paths (the error still reaches the
caller). -/
structure Request where
  Method : String
  URL : String
  Headers : List (String × String)
  Body : Option String
deriving Repr, DecidableEq, Inhabited

/-- An HTTP response with its body fully read: numeric status code, status
text (the Go `resp.Status`, e.g. "400 Bad Request"), and the body. -/
structure Response where
  StatusCode : Nat
  Status : String
  Body : String
deriving Repr, DecidableEq, Inhabited

/-- The transport of the environment: `Client.Do` followed by reading the body.
An error covers both a failed exchange and a failed body read. -/
abbrev Transport := Request → Except String Response

/-- Outcome of one client method call: the receiver after the call (the
source never writes to it), the requests issued, the returned value and
the returned error. -/
structure CallResult (α : Type) where
  client : APIClient
  requests : List Request
  value : α
  err : Option String
deriving Repr, DecidableEq

/-- Request built by `PlaceBet`: a POST to the bet-placement path with the
marshalled payload, API key, content-type and accept headers. -/
def placeBetRequest (c : APIClient) (payload : PlaceBetPayload) : Request :=
  { Method := "POST"
    URL := c.BaseURL ++ "/pub/v3/bets/place"
    Headers := [("X-API-Key", c.APIKey), ("Content-Type", "application/json"),
      ("accept", "application/json")]
    Body := some (marshalPlaceBetPayload payload) }

/-- Model of `APIClient.PlaceBet`: marshal, send, decode the body into a
`PlaceBetResponse` regardless of status, then fail with the status text
when the status is not 200 while still returning the decoded record. -/
def PlaceBet (c : APIClient) (payload : PlaceBetPayload)
    (transport : Transport) : CallResult (Option PlaceBetResponse) :=
  let req := placeBetRequest c payload
  match transport req with
  | .error e => ⟨c, [req], none, some e⟩
  | .ok resp =>
    match (decodeFirstValue resp.Body).bind decodePlaceBetResponse with
    | .error e => ⟨c, [req], none, some e⟩
    | .ok r =>
      if resp.StatusCode ≠ 200 then
        ⟨c, [req], some r, some ("failed to place bet: " ++ resp.Status)⟩
      else ⟨c, [req], some r, none⟩

/-- Request built by `AccountBalance`: a GET to the currency-scoped balance
path with the API key header. -/
def accountBalanceRequest (c : APIClient) (currency : String) : Request :=
  { Method := "GET"
    URL := c.BaseURL ++ "/pub/v1/account/currencies/" ++ currency ++ "/balance"
    Headers := [("X-API-Key", c.APIKey)]
    Body := none }

/-- Model of `APIClient.AccountBalance`: send, decode a `Balance`, then
return `strconv.ParseFloat` of the amount string (value and error both,
exactly as the Go code returns the pair). -/
def AccountBalance (c : APIClient) (currency : String)
    (transport : Transport) : CallResult GoFloat :=
  let req := accountBalanceRequest c currency
  match transport req with
  | .error e => ⟨c, [req], .finite ⟨0, 1⟩, some e⟩
  | .ok resp =>
    match (decodeFirstValue resp.Body).bind decodeBalance with
    | .error e => ⟨c, [req], .finite ⟨0, 1⟩, some e⟩
    | .ok b =>
      let (v, perr) := goParseFloat b.Amount
      ⟨c, [req], v, perr⟩

/-- A calendar date, standing for the call-time local date `time.Now()`. -/
structure GoDate where
  year : Nat
  month : Nat
  day : Nat
deriving Repr, DecidableEq, Inhabited

/-- Left-pad a numeral with zeros, as the Go `Format` layout pads `2006`/`01`/`02`. -/
def padNum (width n : Nat) : String :=
  let s := toString n
  String.mk (List.replicate (width - s.length) '0') ++ s

/-- Format a date as `time.Format("2006-01-02")` does: `YYYY-MM-DD`. -/
def formatISODate (d : GoDate) : String :=
  padNum 4 d.year ++ "-" ++ padNum 2 d.month ++ "-" ++ padNum 2 d.day

/-- Request built by `GetTodayFixtures`: a GET to the fixtures path with
sport, the formatted call-time date, `players=false` and the limit. -/
def fixturesRequest (c : APIClient) (sport : String) (limit : Int)
    (today : GoDate) : Request :=
  { Method := "GET"
    URL := c.BaseURL ++ "/pub/v2/odds/fixtures?sport=" ++ sport ++ "&date="
      ++ formatISODate today ++ "&players=false&limit=" ++ toString limit
    Headers := [("X-API-Key", c.APIKey), ("accept", "application/json")]
    Body := none }

/-- True when the string holds an ASCII control character (below 0x20, or
DEL 0x7f); `url.Parse`, and hence `http.NewRequest`, rejects such a URL
with "net/url: invalid control character in URL". -/
def containsCtlChar (s : String) : Bool :=
  s.data.any (fun c => c.toNat < 32 || c.toNat = 127)

/-- Model of `APIClient.GetTodayFixtures`: build the request, failing as
`http.NewRequest` does when the URL holds an ASCII control character (no
request is issued and the construction error is returned); otherwise
send and return the raw body as text.  `today` stands for the local date
of `time.Now()` at the call. -/
def GetTodayFixtures (c : APIClient) (sport : String) (limit : Int)
    (today : GoDate) (transport : Transport) : CallResult String :=
  let req := fixturesRequest c sport limit today
  if containsCtlChar req.URL then
    ⟨c, [], "", some ("parse \"" ++ req.URL ++
      "\": net/url: invalid control character in URL")⟩
  else
    match transport req with
    | .error e => ⟨c, [req], "", some e⟩
    | .ok resp => ⟨c, [req], resp.Body, none⟩

/-- Model of `APIClient.GetTodayFixturesJSON`: the raw variant followed by
`json.Unmarshal` into `Fixtures`. -/
def GetTodayFixturesJSON (c : APIClient) (sport : String) (limit : Int)
    (today : GoDate) (transport : Transport) : CallResult (Option Fixtures) :=
  let raw := GetTodayFixtures c sport limit today transport
  match raw.err with
  | some e => ⟨raw.client, raw.requests, none, some e⟩
  | none =>
    match (unmarshalValue raw.value).bind decodeFixtures with
    | .error e => ⟨raw.client, raw.requests, none, some e⟩
    | .ok f => ⟨raw.client, raw.requests, some f, none⟩

/-- Request built by `GetEvent`: a GET to the per-event path. -/
def getEventRequest (c : APIClient) (id : String) : Request :=
  { Method := "GET"
    URL := c.BaseURL ++ "/pub/v2/odds/events/" ++ id
    Headers := [("X-API-Key", c.APIKey)]
    Body := none }

/-- Model of `APIClient.GetEvent`: send and return the raw body as text. -/
def GetEvent (c : APIClient) (id : String) (transport : Transport) :
    CallResult String :=
  let req := getEventRequest c id
  match transport req with
  | .error e => ⟨c, [req], "", some e⟩
  | .ok resp => ⟨c, [req], resp.Body, none⟩

/-- Model of `APIClient.GetEventJSON`: the raw variant followed by
`json.Unmarshal` into `Event`. -/
def GetEventJSON (c : APIClient) (id : String) (transport : Transport) :
    CallResult (Option Event) :=
  let raw := GetEvent c id transport
  match raw.err with
  | some e => ⟨raw.client, raw.requests, none, some e⟩
  | none =>
    match (unmarshalValue raw.value).bind decodeEvent with
    | .error e => ⟨raw.client, raw.requests, none, some e⟩
    | .ok ev => ⟨raw.client, raw.requests, some ev, none⟩

/-- Composition described by the spec for the parsed variants: take the raw
outcome of the raw variant, propagate its error unchanged, otherwise JSON-unmarshal
its text and return the decoded value or the decode error. -/
def specParsedFromRaw (raw : CallResult String)
    (unmarshalTo : String → Except String α) : CallResult (Option α) :=
  match raw.err with
  | some e => ⟨raw.client, raw.requests, none, some e⟩
  | none =>
    match unmarshalTo raw.value with
    | .error e => ⟨raw.client, raw.requests, none, some e⟩
    | .ok v => ⟨raw.client, raw.requests, some v, none⟩

/-- Transport that replies to every request with the given response. -/
def constTransport (r : Response) : Transport := fun _ => .ok r

/-- C4 counterexample: a sport string holding a control character ("a\nb")
makes `http.NewRequest` fail, so `GetTodayFixtures` issues zero requests
and returns the construction error, refuting the unconditional "issues
exactly one GET request for every sport string". -/
theorem getTodayFixtures_ctl_sport_counterexample :
    (GetTodayFixtures (NewAPIClient "k") "a\nb" 5 ⟨2026, 10, 11⟩
      (constTransport ⟨200, "200 OK", ""⟩)).requests = [] ∧
    (GetTodayFixtures (NewAPIClient "k") "a\nb" 5 ⟨2026, 10, 11⟩
      (constTransport ⟨200, "200 OK", ""⟩)).err.isSome :=
  ⟨rfl, rfl⟩

/-- C4 amended: when the composed fixtures URL is free of ASCII control
characters (as every ordinary sport key is), `GetTodayFixtures` issues
exactly one GET request, whose URL is the base URL followed by the
fixtures path with the sport, the call-time local date formatted
`YYYY-MM-DD`, `players=false` and the limit, carrying the API key of the
client in the `X-API-Key` header; when the URL holds a control
character, request construction fails, no request is issued and a
non-nil error is returned. -/
theorem getTodayFixtures_request_shape (c : APIClient) (sport : String)
    (limit : Int) (today : GoDate) (transport : Transport) :
    (containsCtlChar (fixturesRequest c sport limit today).URL = false →
      (GetTodayFixtures c sport limit today transport).requests =
        [{ Method := "GET"
           URL := c.BaseURL ++ "/pub/v2/odds/fixtures?sport=" ++ sport ++
             "&date=" ++ (padNum 4 today.year ++ "-" ++ padNum 2 today.month ++
               "-" ++ padNum 2 today.day) ++ "&players=false&limit=" ++
             toString limit
           Headers := [("X-API-Key", c.APIKey), ("accept", "application/json")]
           Body := none }]) ∧
    (containsCtlChar (fixturesRequest c sport limit today).URL = true →
      (GetTodayFixtures c sport limit today transport).requests = [] ∧
      (GetTodayFixtures c sport limit today transport).err.isSome) := by
  constructor
  · intro hV
    cases h : transport (fixturesRequest c sport limit today) with
    | error e =>
      simp [GetTodayFixtures, hV, h]
      simp [fixturesRequest, formatISODate]
    | ok resp =>
      simp [GetTodayFixtures, hV, h]
      simp [fixturesRequest, formatISODate]
  · intro hV
    simp [GetTodayFixtures, hV]

/-- C4 amended witness: a control-character-free sport ("soccer") issues
exactly the specified request. -/
theorem getTodayFixtures_request_shape_witness :
    (GetTodayFixtures (NewAPIClient "k") "soccer" 5 ⟨2026, 10, 11⟩
      (constTransport ⟨200, "200 OK", "x"⟩)).requests =
      [{ Method := "GET"
         URL := (NewAPIClient "k").BaseURL ++
           "/pub/v2/odds/fixtures?sport=" ++ "soccer" ++ "&date=" ++
           (padNum 4 2026 ++ "-" ++ padNum 2 10 ++ "-" ++ padNum 2 11) ++
           "&players=false&limit=" ++ toString (5 : Int)
         Headers := [("X-API-Key", (NewAPIClient "k").APIKey),
           ("accept", "application/json")]
         Body := none }] :=
  (getTodayFixtures_request_shape (NewAPIClient "k") "soccer" 5 ⟨2026, 10, 11⟩
    (constTransport ⟨200, "200 OK", "x"⟩)).1 (by decide)

/-- C5: each parsed variant equals the raw variant composed with JSON
unmarshalling, errors of the raw variant propagating unchanged. -/
theorem parsed_variants_refine_raw (c : APIClient) (sport : String)
    (limit : Int) (today : GoDate) (id : String) (transport : Transport) :
    GetTodayFixturesJSON c sport limit today transport =
      specParsedFromRaw (GetTodayFixtures c sport limit today transport)
        (fun b => (unmarshalValue b).bind decodeFixtures) ∧
    GetEventJSON c id transport =
      specParsedFromRaw (GetEvent c id transport)
        (fun b => (unmarshalValue b).bind decodeEvent) := by
  constructor
  · by_cases hv : containsCtlChar (fixturesRequest c sport limit today).URL = true
    · simp [GetTodayFixturesJSON, specParsedFromRaw, GetTodayFixtures, hv]
    · cases h : transport (fixturesRequest c sport limit today) with
      | error e =>
        simp [GetTodayFixturesJSON, specParsedFromRaw, GetTodayFixtures, hv, h]
      | ok resp =>
        cases hd : (unmarshalValue resp.Body).bind decodeFixtures with
        | error e2 =>
          simp [GetTodayFixturesJSON, specParsedFromRaw, GetTodayFixtures,
            hv, h, hd]
        | ok f =>
          simp [GetTodayFixturesJSON, specParsedFromRaw, GetTodayFixtures,
            hv, h, hd]
  · cases h : transport (getEventRequest c id) with
    | error e =>
      simp only [GetEventJSON, specParsedFromRaw, GetEvent, h]
    | ok resp =>
      simp only [GetEventJSON, specParsedFromRaw, GetEvent, h]
      cases (unmarshalValue resp.Body).bind decodeEvent <;> rfl

/-- C10: no operation mutates the client; the configuration with which a
call starts is the configuration with which it ends. -/
theorem operations_leave_client_unchanged (c : APIClient)
    (payload : PlaceBetPayload) (currency sport id : String) (limit : Int)
    (today : GoDate) (transport : Transport) :
    (PlaceBet c payload transport).client = c ∧
    (AccountBalance c currency transport).client = c ∧
    (GetTodayFixtures c sport limit today transport).client = c ∧
    (GetTodayFixturesJSON c sport limit today transport).client = c ∧
    (GetEvent c id transport).client = c ∧
    (GetEventJSON c id transport).client = c := by
  refine ⟨?_, ?_, ?_, ?_, ?_, ?_⟩
  · cases h : transport (placeBetRequest c payload) with
    | error e => simp only [PlaceBet, h]
    | ok resp =>
      simp only [PlaceBet, h]
      cases (decodeFirstValue resp.Body).bind decodePlaceBetResponse with
      | error e => rfl
      | ok r => by_cases hs : resp.StatusCode = 200 <;> simp [hs]
  · cases h : transport (accountBalanceRequest c currency) with
    | error e => simp only [AccountBalance, h]
    | ok resp =>
      simp only [AccountBalance, h]
      cases (decodeFirstValue resp.Body).bind decodeBalance <;> rfl
  · by_cases hv : containsCtlChar (fixturesRequest c sport limit today).URL = true
    · simp [GetTodayFixtures, hv]
    · cases h : transport (fixturesRequest c sport limit today) with
      | error e => simp [GetTodayFixtures, hv, h]
      | ok resp => simp [GetTodayFixtures, hv, h]
  · by_cases hv : containsCtlChar (fixturesRequest c sport limit today).URL = true
    · simp [GetTodayFixturesJSON, GetTodayFixtures, hv]
    · cases h : transport (fixturesRequest c sport limit today) with
      | error e => simp [GetTodayFixturesJSON, GetTodayFixtures, hv, h]
      | ok resp =>
        cases hd : (unmarshalValue resp.Body).bind decodeFixtures with
        | error e2 => simp [GetTodayFixturesJSON, GetTodayFixtures, hv, h, hd]
        | ok f => simp [GetTodayFixturesJSON, GetTodayFixtures, hv, h, hd]
  · cases h : transport (getEventRequest c id) with
    | error e => simp only [GetEvent, h]
    | ok resp => simp only [GetEvent, h]
  · cases h : transport (getEventRequest c id) with
    | error e => simp only [GetEventJSON, GetEvent, h]
    | ok resp =>
      simp only [GetEventJSON, GetEvent, h]
      cases (unmarshalValue resp.Body).bind decodeEvent <;> rfl

/-- C1: when the response has a non-success status and its body decodes
into a `PlaceBetResponse`, `PlaceBet` returns both the decoded record and
a non-nil error whose message ends with (hence contains) the HTTP status
text. -/
theorem placeBet_non_success_returns_result_and_error (c : APIClient)
    (payload : PlaceBetPayload) (transport : Transport) (resp : Response)
    (r : PlaceBetResponse)
    (hT : transport (placeBetRequest c payload) = .ok resp)
    (hS : resp.StatusCode ≠ 200)
    (hD : (decodeFirstValue resp.Body).bind decodePlaceBetResponse = .ok r) :
    PlaceBet c payload transport =
      ⟨c, [placeBetRequest c payload], some r,
        some ("failed to place bet: " ++ resp.Status)⟩ ∧
    ∃ pre, "failed to place bet: " ++ resp.Status = pre ++ resp.Status := by
  refine ⟨?_, "failed to place bet: ", rfl⟩
  simp only [PlaceBet, hT, hD]
  simp [hS]

/-- C1 witness: HTTP 400 with body `{"error":"insufficient funds"}` yields
the decoded record whose `Error` field is "insufficient funds" together
with the non-nil status-text error. -/
theorem placeBet_non_success_returns_result_and_error_witness :
    PlaceBet (NewAPIClient "k") default
        (constTransport ⟨400, "400 Bad Request",
          "\x7b\"error\":\"insufficient funds\"\x7d"⟩) =
      ⟨NewAPIClient "k", [placeBetRequest (NewAPIClient "k") default],
        some ⟨"", "", "", "", "", "", "", "", "", "", "", "", "", "", "",
          "insufficient funds"⟩,
        some "failed to place bet: 400 Bad Request"⟩ :=
  (placeBet_non_success_returns_result_and_error (NewAPIClient "k") default
    (constTransport ⟨400, "400 Bad Request",
      "\x7b\"error\":\"insufficient funds\"\x7d"⟩)
    ⟨400, "400 Bad Request", "\x7b\"error\":\"insufficient funds\"\x7d"⟩
    ⟨"", "", "", "", "", "", "", "", "", "", "", "", "", "", "",
      "insufficient funds"⟩
    rfl (by decide) rfl).1

/-- C7: when the response body does not decode into a `PlaceBetResponse`,
`PlaceBet` returns a nil result together with the decode error, whatever
the HTTP status was. -/
theorem placeBet_undecodable_body_returns_nil_result (c : APIClient)
    (payload : PlaceBetPayload) (transport : Transport) (resp : Response)
    (e : String)
    (hT : transport (placeBetRequest c payload) = .ok resp)
    (hD : (decodeFirstValue resp.Body).bind decodePlaceBetResponse = .error e) :
    PlaceBet c payload transport =
      ⟨c, [placeBetRequest c payload], none, some e⟩ := by
  simp only [PlaceBet, hT, hD]

/-- C7 witness: a non-success status with a malformed body gives a nil
result and the decode error. -/
theorem placeBet_undecodable_body_returns_nil_result_witness :
    PlaceBet (NewAPIClient "k") default
        (constTransport ⟨400, "400 Bad Request", "not json"⟩) =
      ⟨NewAPIClient "k", [placeBetRequest (NewAPIClient "k") default], none,
        some "invalid character looking for beginning of value"⟩ :=
  placeBet_undecodable_body_returns_nil_result (NewAPIClient "k") default
    (constTransport ⟨400, "400 Bad Request", "not json"⟩)
    ⟨400, "400 Bad Request", "not json"⟩
    "invalid character looking for beginning of value" rfl rfl

/-- C8: `PlaceBet` errors for every status other than exactly 200 (the Go
constant `http.StatusOK`), including other success-class statuses, and a
nil error forces status 200 with a decoded body. -/
theorem placeBet_nil_error_only_on_status_200 (c : APIClient)
    (payload : PlaceBetPayload) (transport : Transport) (resp : Response)
    (hT : transport (placeBetRequest c payload) = .ok resp) :
    (resp.StatusCode ≠ 200 → (PlaceBet c payload transport).err.isSome) ∧
    ((PlaceBet c payload transport).err = none →
      resp.StatusCode = 200 ∧
      ∃ r, (decodeFirstValue resp.Body).bind decodePlaceBetResponse = .ok r ∧
        (PlaceBet c payload transport).value = some r) := by
  cases hD : (decodeFirstValue resp.Body).bind decodePlaceBetResponse with
  | error e =>
    have hPB : PlaceBet c payload transport =
        ⟨c, [placeBetRequest c payload], none, some e⟩ := by
      simp only [PlaceBet, hT, hD]
    rw [hPB]
    exact ⟨fun _ => rfl, fun h => Option.noConfusion h⟩
  | ok r =>
    by_cases hs : resp.StatusCode = 200
    · have hPB : PlaceBet c payload transport =
          ⟨c, [placeBetRequest c payload], some r, none⟩ := by
        simp only [PlaceBet, hT, hD]
        simp [hs]
      rw [hPB]
      exact ⟨fun h => absurd hs h, fun _ => ⟨hs, r, rfl, rfl⟩⟩
    · have hPB : PlaceBet c payload transport =
          ⟨c, [placeBetRequest c payload], some r,
            some ("failed to place bet: " ++ resp.Status)⟩ := by
        simp only [PlaceBet, hT, hD]
        simp [hs]
      rw [hPB]
      exact ⟨fun _ => rfl, fun h => Option.noConfusion h⟩

/-- C8 witness: a 201 response with a well-formed body still yields a
non-nil error. -/
theorem placeBet_nil_error_only_on_status_200_witness :
    (PlaceBet (NewAPIClient "k") default
      (constTransport ⟨201, "201 Created", "\x7b\x7d"⟩)).err.isSome :=
  (placeBet_nil_error_only_on_status_200 (NewAPIClient "k") default
    (constTransport ⟨201, "201 Created", "\x7b\x7d"⟩)
    ⟨201, "201 Created", "\x7b\x7d"⟩ rfl).1 (by decide)

/-- C2: a balance body `{"amount":"12.50"}` yields 12.50 (the rational
25/2, exactly representable in binary64) with a nil error, `{"amount":"0"}`
yields 0 with a nil error, and an amount string `strconv.ParseFloat`
rejects yields a non-nil error (the parse error itself). -/
theorem accountBalance_amount_parsing (c : APIClient) (currency : String)
    (transport : Transport) :
    (∀ resp, transport (accountBalanceRequest c currency) = .ok resp →
      resp.Body = "\x7b\"amount\":\"12.50\"\x7d" →
      AccountBalance c currency transport =
        ⟨c, [accountBalanceRequest c currency], .finite ⟨25, 2⟩, none⟩) ∧
    (∀ resp, transport (accountBalanceRequest c currency) = .ok resp →
      resp.Body = "\x7b\"amount\":\"0\"\x7d" →
      AccountBalance c currency transport =
        ⟨c, [accountBalanceRequest c currency], .finite ⟨0, 1⟩, none⟩) ∧
    (∀ resp s, transport (accountBalanceRequest c currency) = .ok resp →
      (decodeFirstValue resp.Body).bind decodeBalance = .ok ⟨s⟩ →
      (goParseFloat s).2.isSome →
      (AccountBalance c currency transport).err = (goParseFloat s).2 ∧
        (AccountBalance c currency transport).err.isSome) := by
  refine ⟨?_, ?_, ?_⟩
  · intro resp hT hB
    simp only [AccountBalance, hT, hB]
    rfl
  · intro resp hT hB
    simp only [AccountBalance, hT, hB]
    rfl
  · intro resp s hT hD hP
    cases hgp : goParseFloat s with
    | mk v perr =>
      simp only [AccountBalance, hT, hD, hgp]
      rw [hgp] at hP
      constructor
      · simp
      · simpa using hP

/-- C2 witness: the three cases at concrete bodies, with "abc" as the
non-numeric amount. -/
theorem accountBalance_amount_parsing_witness :
    AccountBalance (NewAPIClient "k") "EUR"
        (constTransport ⟨200, "200 OK", "\x7b\"amount\":\"12.50\"\x7d"⟩) =
      ⟨NewAPIClient "k", [accountBalanceRequest (NewAPIClient "k") "EUR"],
        .finite ⟨25, 2⟩, none⟩ ∧
    AccountBalance (NewAPIClient "k") "EUR"
        (constTransport ⟨200, "200 OK", "\x7b\"amount\":\"0\"\x7d"⟩) =
      ⟨NewAPIClient "k", [accountBalanceRequest (NewAPIClient "k") "EUR"],
        .finite ⟨0, 1⟩, none⟩ ∧
    (AccountBalance (NewAPIClient "k") "EUR"
        (constTransport ⟨200, "200 OK", "\x7b\"amount\":\"abc\"\x7d"⟩)).err.isSome :=
  ⟨(accountBalance_amount_parsing (NewAPIClient "k") "EUR"
      (constTransport ⟨200, "200 OK", "\x7b\"amount\":\"12.50\"\x7d"⟩)).1
    ⟨200, "200 OK", "\x7b\"amount\":\"12.50\"\x7d"⟩ rfl rfl,
   (accountBalance_amount_parsing (NewAPIClient "k") "EUR"
      (constTransport ⟨200, "200 OK", "\x7b\"amount\":\"0\"\x7d"⟩)).2.1
    ⟨200, "200 OK", "\x7b\"amount\":\"0\"\x7d"⟩ rfl rfl,
   ((accountBalance_amount_parsing (NewAPIClient "k") "EUR"
      (constTransport ⟨200, "200 OK", "\x7b\"amount\":\"abc\"\x7d"⟩)).2.2
    ⟨200, "200 OK", "\x7b\"amount\":\"abc\"\x7d"⟩ "abc" rfl rfl rfl).2⟩

/-- C9: every operation is a total function whose failures are returned
error values (never a crash): the parsed variants return exactly one of a
value or an error, `PlaceBet` always carries an error when it carries no
result, the remaining operations always return their receiver, the
issued requests, a value and an error slot (the fixtures raw variant
either issues its one request or fails request construction, issuing
none and returning that error), and a body that is not valid JSON for
the event shape makes `GetEventJSON` fail with the decoding error. -/
theorem operations_always_return_error_values :
    (∀ (c : APIClient) (id : String) (t : Transport),
      (GetEventJSON c id t).value.isSome ↔ (GetEventJSON c id t).err = none) ∧
    (∀ (c : APIClient) (sport : String) (limit : Int) (today : GoDate)
      (t : Transport),
      (GetTodayFixturesJSON c sport limit today t).value.isSome ↔
        (GetTodayFixturesJSON c sport limit today t).err = none) ∧
    (∀ (c : APIClient) (p : PlaceBetPayload) (t : Transport),
      (PlaceBet c p t).value = none → (PlaceBet c p t).err.isSome) ∧
    (∀ (c : APIClient) (cur : String) (t : Transport), ∃ v e,
      AccountBalance c cur t = ⟨c, [accountBalanceRequest c cur], v, e⟩) ∧
    (∀ (c : APIClient) (sport : String) (limit : Int) (today : GoDate)
      (t : Transport),
      (∃ v e, GetTodayFixtures c sport limit today t =
        ⟨c, [fixturesRequest c sport limit today], v, e⟩) ∨
      (∃ e, GetTodayFixtures c sport limit today t = ⟨c, [], "", some e⟩)) ∧
    (∀ (c : APIClient) (id : String) (t : Transport), ∃ v e,
      GetEvent c id t = ⟨c, [getEventRequest c id], v, e⟩) ∧
    (∀ (c : APIClient) (id : String) (t : Transport) (resp : Response)
      (e : String),
      t (getEventRequest c id) = .ok resp →
      (unmarshalValue resp.Body).bind decodeEvent = .error e →
      GetEventJSON c id t = ⟨c, [getEventRequest c id], none, some e⟩) := by
  refine ⟨?_, ?_, ?_, ?_, ?_, ?_, ?_⟩
  · intro c id t
    cases h : t (getEventRequest c id) with
    | error e => simp [GetEventJSON, GetEvent, h]
    | ok resp =>
      cases hd : (unmarshalValue resp.Body).bind decodeEvent with
      | error e => simp [GetEventJSON, GetEvent, h, hd]
      | ok v => simp [GetEventJSON, GetEvent, h, hd]
  · intro c sport limit today t
    by_cases hv : containsCtlChar (fixturesRequest c sport limit today).URL = true
    · simp [GetTodayFixturesJSON, GetTodayFixtures, hv]
    · cases h : t (fixturesRequest c sport limit today) with
      | error e => simp [GetTodayFixturesJSON, GetTodayFixtures, hv, h]
      | ok resp =>
        cases hd : (unmarshalValue resp.Body).bind decodeFixtures with
        | error e => simp [GetTodayFixturesJSON, GetTodayFixtures, hv, h, hd]
        | ok v => simp [GetTodayFixturesJSON, GetTodayFixtures, hv, h, hd]
  · intro c p t
    cases h : t (placeBetRequest c p) with
    | error e => simp [PlaceBet, h]
    | ok resp =>
      cases hd : (decodeFirstValue resp.Body).bind decodePlaceBetResponse with
      | error e => simp [PlaceBet, h, hd]
      | ok r =>
        by_cases hs : resp.StatusCode = 200 <;> simp [PlaceBet, h, hd, hs]
  · intro c cur t
    refine ⟨(AccountBalance c cur t).value, (AccountBalance c cur t).err, ?_⟩
    cases h : t (accountBalanceRequest c cur) with
    | error e => simp [AccountBalance, h]
    | ok resp =>
      cases hd : (decodeFirstValue resp.Body).bind decodeBalance with
      | error e => simp [AccountBalance, h, hd]
      | ok b => simp [AccountBalance, h, hd]
  · intro c sport limit today t
    by_cases hv : containsCtlChar (fixturesRequest c sport limit today).URL = true
    · right
      refine ⟨"parse \"" ++ (fixturesRequest c sport limit today).URL ++
        "\": net/url: invalid control character in URL", ?_⟩
      simp [GetTodayFixtures, hv]
    · left
      refine ⟨(GetTodayFixtures c sport limit today t).value,
        (GetTodayFixtures c sport limit today t).err, ?_⟩
      cases h : t (fixturesRequest c sport limit today) with
      | error e => simp [GetTodayFixtures, hv, h]
      | ok resp => simp [GetTodayFixtures, hv, h]
  · intro c id t
    refine ⟨(GetEvent c id t).value, (GetEvent c id t).err, ?_⟩
    cases h : t (getEventRequest c id) with
    | error e => simp [GetEvent, h]
    | ok resp => simp [GetEvent, h]
  · intro c id t resp e hT hD
    simp only [GetEventJSON, GetEvent, hT, hD]

/-- C9 witness: a body that is not valid JSON makes `GetEventJSON` return
the decoding error, with no result and no crash. -/
theorem operations_always_return_error_values_witness :
    GetEventJSON (NewAPIClient "k") "9"
        (constTransport ⟨200, "200 OK", "not an event"⟩) =
      ⟨NewAPIClient "k", [getEventRequest (NewAPIClient "k") "9"], none,
        some "invalid character looking for beginning of value"⟩ :=
  operations_always_return_error_values.2.2.2.2.2.2 (NewAPIClient "k") "9"
    (constTransport ⟨200, "200 OK", "not an event"⟩)
    ⟨200, "200 OK", "not an event"⟩
    "invalid character looking for beginning of value" rfl rfl

/-- Appending a member whose key matches no struct field cannot change
which member a field receives. -/
theorem jField_append_unmatched (fs : List (String × JSON)) (k : String)
    (v : JSON) (name : String) (h : eqFold k name = false) :
    jField (fs ++ [(k, v)]) name = jField fs name := by
  simp [jField, List.filter_append, h]

/-- C3 counterexample: two event responses whose `markets` JSON objects
carry different market keys ("marketA" with sequence 5 versus "marketB"
with sequence 9, each holding one selection) decode to the same event,
whose markets component is the all-zero record.  No decoded value
preserves the keys of the markets object of the response, so markets is a
fixed record, not a generic string-keyed map. -/
theorem eventMarkets_not_a_keyed_map_counterexample :
    (GetEventJSON (NewAPIClient "k") "9" (constTransport ⟨200, "200 OK",
      "\x7b\"markets\":\x7b\"marketA\":\x7b\"selections\":[\x7b\"price\":1.5\x7d],\"sequence\":5\x7d\x7d\x7d"⟩)).err
        = none ∧
    (GetEventJSON (NewAPIClient "k") "9" (constTransport ⟨200, "200 OK",
      "\x7b\"markets\":\x7b\"marketA\":\x7b\"selections\":[\x7b\"price\":1.5\x7d],\"sequence\":5\x7d\x7d\x7d"⟩)).value
      =
    (GetEventJSON (NewAPIClient "k") "9" (constTransport ⟨200, "200 OK",
      "\x7b\"markets\":\x7b\"marketB\":\x7b\"selections\":[\x7b\"price\":2.5\x7d],\"sequence\":9\x7d\x7d\x7d"⟩)).value
      ∧
    (GetEventJSON (NewAPIClient "k") "9" (constTransport ⟨200, "200 OK",
      "\x7b\"markets\":\x7b\"marketA\":\x7b\"selections\":[\x7b\"price\":1.5\x7d],\"sequence\":5\x7d\x7d\x7d"⟩)).value.map
        Event.Markets = some ⟨⟨[], 0⟩, ⟨"", ""⟩, ⟨"", ""⟩⟩ :=
  ⟨rfl, rfl, rfl⟩

/-- C3 amended: the decoded markets component is a fixed record with
exactly the fields `additionalProp1` (selections plus sequence counter),
`additionalProp2` and `additionalProp3`; a member under any other key is
ignored by the decoder, and the three fixed keys decode into their
respective fields. -/
theorem eventMarkets_fixed_fields (fs : List (String × JSON)) (k : String)
    (v : JSON) (a1 : AdditionalProp1) (a2 : AdditionalProp2)
    (a3 : AdditionalProp3)
    (hk1 : eqFold k "additionalProp1" = false)
    (hk2 : eqFold k "additionalProp2" = false)
    (hk3 : eqFold k "additionalProp3" = false) :
    decodeEventMarkets (.obj (fs ++ [(k, v)])) =
      decodeEventMarkets (.obj fs) ∧
    (fieldD fs "additionalProp1" decodeAdditionalProp1 default = .ok a1 →
     fieldD fs "additionalProp2" decodeAdditionalProp2 default = .ok a2 →
     fieldD fs "additionalProp3" decodeAdditionalProp3 default = .ok a3 →
     decodeEventMarkets (.obj fs) = .ok ⟨a1, a2, a3⟩) := by
  constructor
  · have h1 := jField_append_unmatched fs k v "additionalProp1" hk1
    have h2 := jField_append_unmatched fs k v "additionalProp2" hk2
    have h3 := jField_append_unmatched fs k v "additionalProp3" hk3
    simp [decodeEventMarkets, fieldD, h1, h2, h3]
  · intro h1 h2 h3
    simp [decodeEventMarkets, h1, h2, h3]
    rfl

/-- C3 amended witness: a markets object holding `additionalProp1` with
sequence 7 plus a foreign key "myKey"; the foreign key is dropped and the
fixed field is preserved. -/
theorem eventMarkets_fixed_fields_witness :
    decodeEventMarkets (.obj
        ([("additionalProp1", .obj [("sequence", .num ⟨7, 1⟩)])] ++
          [("myKey", .null)])) =
      decodeEventMarkets (.obj
        [("additionalProp1", .obj [("sequence", .num ⟨7, 1⟩)])]) ∧
    decodeEventMarkets (.obj
        [("additionalProp1", .obj [("sequence", .num ⟨7, 1⟩)])]) =
      .ok ⟨⟨[], 7⟩, ⟨"", ""⟩, ⟨"", ""⟩⟩ := by
  have H := eventMarkets_fixed_fields
    [("additionalProp1", .obj [("sequence", .num ⟨7, 1⟩)])] "myKey" .null
    ⟨[], 7⟩ ⟨"", ""⟩ ⟨"", ""⟩ rfl rfl rfl
  exact ⟨H.1, H.2 rfl rfl rfl⟩

/-- C6: a fixtures response whose JSON carries exactly two competitions
with one event each (arbitrary names, keys and parseable cutoff
timestamps) parses to a structure with competition count 2, one event per
competition, and the supplied names, keys and cutoff timestamps
preserved verbatim; the composed URL is assumed free of control
characters so that the request is actually issued. -/
theorem fixtures_two_competitions_preserved (c : APIClient) (sport : String)
    (limit : Int) (today : GoDate) (transport : Transport) (resp : Response)
    (cn1 ck1 cn2 ck2 en1 ek1 en2 ek2 ct1 ct2 : String) (T1 T2 : GoTime)
    (hV : containsCtlChar (fixturesRequest c sport limit today).URL = false)
    (hT : transport (fixturesRequest c sport limit today) = .ok resp)
    (hB : unmarshalValue resp.Body = .ok (.obj [("competitions", .arr
      [.obj [("name", .str cn1), ("key", .str ck1), ("events", .arr
         [.obj [("name", .str en1), ("key", .str ek1), ("cutoffTime", .str ct1)]])],
       .obj [("name", .str cn2), ("key", .str ck2), ("events", .arr
         [.obj [("name", .str en2), ("key", .str ek2), ("cutoffTime", .str ct2)]])]])]))
    (h1 : parseRFC3339 ct1 = .ok T1) (h2 : parseRFC3339 ct2 = .ok T2) :
    GetTodayFixturesJSON c sport limit today transport =
      ⟨c, [fixturesRequest c sport limit today],
        some ⟨[⟨cn1, ck1, default,
                 [⟨0, default, default, ⟨⟩, "", ⟨⟩, en1, ek1, T1, ""⟩], default⟩,
               ⟨cn2, ck2, default,
                 [⟨0, default, default, ⟨⟩, "", ⟨⟩, en2, ek2, T2, ""⟩], default⟩]⟩,
        none⟩ ∧
    (GetTodayFixturesJSON c sport limit today transport).value.map
      (fun f => (f.Competitions.length,
        f.Competitions.map (fun comp => comp.Events.length))) =
      some (2, [1, 1]) := by
  have he1 : decodeEvents (.obj [("name", .str en1), ("key", .str ek1),
      ("cutoffTime", .str ct1)]) =
      .ok ⟨0, default, default, ⟨⟩, "", ⟨⟩, en1, ek1, T1, ""⟩ := by
    have hs : decodeEvents (.obj [("name", .str en1), ("key", .str ek1),
        ("cutoffTime", .str ct1)]) =
        (decodeGoTime (.str ct1)).bind (fun ctv =>
          .ok ⟨0, default, default, ⟨⟩, "", ⟨⟩, en1, ek1, ctv, ""⟩) := rfl
    rw [hs, show decodeGoTime (.str ct1) = .ok T1 from h1]
    rfl
  have he2 : decodeEvents (.obj [("name", .str en2), ("key", .str ek2),
      ("cutoffTime", .str ct2)]) =
      .ok ⟨0, default, default, ⟨⟩, "", ⟨⟩, en2, ek2, T2, ""⟩ := by
    have hs : decodeEvents (.obj [("name", .str en2), ("key", .str ek2),
        ("cutoffTime", .str ct2)]) =
        (decodeGoTime (.str ct2)).bind (fun ctv =>
          .ok ⟨0, default, default, ⟨⟩, "", ⟨⟩, en2, ek2, ctv, ""⟩) := rfl
    rw [hs, show decodeGoTime (.str ct2) = .ok T2 from h2]
    rfl
  have hc1 : decodeCompetitions (.obj [("name", .str cn1), ("key", .str ck1),
      ("events", .arr [.obj [("name", .str en1), ("key", .str ek1),
        ("cutoffTime", .str ct1)]])]) =
      .ok ⟨cn1, ck1, default,
        [⟨0, default, default, ⟨⟩, "", ⟨⟩, en1, ek1, T1, ""⟩], default⟩ := by
    have hl : decodeAll decodeEvents [.obj [("name", .str en1),
        ("key", .str ek1), ("cutoffTime", .str ct1)]] =
        .ok [⟨0, default, default, ⟨⟩, "", ⟨⟩, en1, ek1, T1, ""⟩] := by
      have hs : decodeAll decodeEvents [.obj [("name", .str en1),
          ("key", .str ek1), ("cutoffTime", .str ct1)]] =
          (decodeEvents (.obj [("name", .str en1), ("key", .str ek1),
            ("cutoffTime", .str ct1)])).bind (fun a => .ok [a]) := rfl
      rw [hs, he1]
      rfl
    have hs : decodeCompetitions (.obj [("name", .str cn1), ("key", .str ck1),
        ("events", .arr [.obj [("name", .str en1), ("key", .str ek1),
          ("cutoffTime", .str ct1)]])]) =
        (decodeAll decodeEvents [.obj [("name", .str en1), ("key", .str ek1),
          ("cutoffTime", .str ct1)]]).bind (fun ev =>
            .ok ⟨cn1, ck1, default, ev, default⟩) := rfl
    rw [hs, hl]
    rfl
  have hc2 : decodeCompetitions (.obj [("name", .str cn2), ("key", .str ck2),
      ("events", .arr [.obj [("name", .str en2), ("key", .str ek2),
        ("cutoffTime", .str ct2)]])]) =
      .ok ⟨cn2, ck2, default,
        [⟨0, default, default, ⟨⟩, "", ⟨⟩, en2, ek2, T2, ""⟩], default⟩ := by
    have hl : decodeAll decodeEvents [.obj [("name", .str en2),
        ("key", .str ek2), ("cutoffTime", .str ct2)]] =
        .ok [⟨0, default, default, ⟨⟩, "", ⟨⟩, en2, ek2, T2, ""⟩] := by
      have hs : decodeAll decodeEvents [.obj [("name", .str en2),
          ("key", .str ek2), ("cutoffTime", .str ct2)]] =
          (decodeEvents (.obj [("name", .str en2), ("key", .str ek2),
            ("cutoffTime", .str ct2)])).bind (fun a => .ok [a]) := rfl
      rw [hs, he2]
      rfl
    have hs : decodeCompetitions (.obj [("name", .str cn2), ("key", .str ck2),
        ("events", .arr [.obj [("name", .str en2), ("key", .str ek2),
          ("cutoffTime", .str ct2)]])]) =
        (decodeAll decodeEvents [.obj [("name", .str en2), ("key", .str ek2),
          ("cutoffTime", .str ct2)]]).bind (fun ev =>
            .ok ⟨cn2, ck2, default, ev, default⟩) := rfl
    rw [hs, hl]
    rfl
  have hall : decodeAll decodeCompetitions
      [.obj [("name", .str cn1), ("key", .str ck1), ("events", .arr
         [.obj [("name", .str en1), ("key", .str ek1), ("cutoffTime", .str ct1)]])],
       .obj [("name", .str cn2), ("key", .str ck2), ("events", .arr
         [.obj [("name", .str en2), ("key", .str ek2), ("cutoffTime", .str ct2)]])]] =
      .ok [⟨cn1, ck1, default,
              [⟨0, default, default, ⟨⟩, "", ⟨⟩, en1, ek1, T1, ""⟩], default⟩,
            ⟨cn2, ck2, default,
              [⟨0, default, default, ⟨⟩, "", ⟨⟩, en2, ek2, T2, ""⟩], default⟩] := by
    have htl : decodeAll decodeCompetitions
        [.obj [("name", .str cn2), ("key", .str ck2), ("events", .arr
          [.obj [("name", .str en2), ("key", .str ek2), ("cutoffTime", .str ct2)]])]] =
        .ok [⟨cn2, ck2, default,
          [⟨0, default, default, ⟨⟩, "", ⟨⟩, en2, ek2, T2, ""⟩], default⟩] := by
      have hs : decodeAll decodeCompetitions
          [.obj [("name", .str cn2), ("key", .str ck2), ("events", .arr
            [.obj [("name", .str en2), ("key", .str ek2), ("cutoffTime", .str ct2)]])]] =
          (decodeCompetitions (.obj [("name", .str cn2), ("key", .str ck2),
            ("events", .arr [.obj [("name", .str en2), ("key", .str ek2),
              ("cutoffTime", .str ct2)]])])).bind (fun a => .ok [a]) := rfl
      rw [hs, hc2]
      rfl
    have hs : decodeAll decodeCompetitions
        [.obj [("name", .str cn1), ("key", .str ck1), ("events", .arr
           [.obj [("name", .str en1), ("key", .str ek1), ("cutoffTime", .str ct1)]])],
         .obj [("name", .str cn2), ("key", .str ck2), ("events", .arr
           [.obj [("name", .str en2), ("key", .str ek2), ("cutoffTime", .str ct2)]])]] =
        (decodeCompetitions (.obj [("name", .str cn1), ("key", .str ck1),
          ("events", .arr [.obj [("name", .str en1), ("key", .str ek1),
            ("cutoffTime", .str ct1)]])])).bind (fun a =>
          (decodeAll decodeCompetitions
            [.obj [("name", .str cn2), ("key", .str ck2), ("events", .arr
              [.obj [("name", .str en2), ("key", .str ek2),
                ("cutoffTime", .str ct2)]])]]).bind (fun as => .ok (a :: as))) := rfl
    rw [hs, hc1, htl]
    rfl
  have hfix : decodeFixtures (.obj [("competitions", .arr
      [.obj [("name", .str cn1), ("key", .str ck1), ("events", .arr
         [.obj [("name", .str en1), ("key", .str ek1), ("cutoffTime", .str ct1)]])],
       .obj [("name", .str cn2), ("key", .str ck2), ("events", .arr
         [.obj [("name", .str en2), ("key", .str ek2), ("cutoffTime", .str ct2)]])]])]) =
      .ok ⟨[⟨cn1, ck1, default,
              [⟨0, default, default, ⟨⟩, "", ⟨⟩, en1, ek1, T1, ""⟩], default⟩,
            ⟨cn2, ck2, default,
              [⟨0, default, default, ⟨⟩, "", ⟨⟩, en2, ek2, T2, ""⟩], default⟩]⟩ := by
    have hs : decodeFixtures (.obj [("competitions", .arr
        [.obj [("name", .str cn1), ("key", .str ck1), ("events", .arr
           [.obj [("name", .str en1), ("key", .str ek1), ("cutoffTime", .str ct1)]])],
         .obj [("name", .str cn2), ("key", .str ck2), ("events", .arr
           [.obj [("name", .str en2), ("key", .str ek2), ("cutoffTime", .str ct2)]])]])]) =
        (decodeAll decodeCompetitions
          [.obj [("name", .str cn1), ("key", .str ck1), ("events", .arr
             [.obj [("name", .str en1), ("key", .str ek1), ("cutoffTime", .str ct1)]])],
           .obj [("name", .str cn2), ("key", .str ck2), ("events", .arr
             [.obj [("name", .str en2), ("key", .str ek2),
               ("cutoffTime", .str ct2)]])]]).bind (fun cs => .ok ⟨cs⟩) := rfl
    rw [hs, hall]
    rfl
  have hmain : GetTodayFixturesJSON c sport limit today transport =
      ⟨c, [fixturesRequest c sport limit today],
        some ⟨[⟨cn1, ck1, default,
                 [⟨0, default, default, ⟨⟩, "", ⟨⟩, en1, ek1, T1, ""⟩], default⟩,
               ⟨cn2, ck2, default,
                 [⟨0, default, default, ⟨⟩, "", ⟨⟩, en2, ek2, T2, ""⟩], default⟩]⟩,
        none⟩ := by
    have hraw : GetTodayFixtures c sport limit today transport =
        ⟨c, [fixturesRequest c sport limit today], resp.Body, none⟩ := by
      simp [GetTodayFixtures, hV, hT]
    simp only [GetTodayFixturesJSON, hraw, hB, Except.bind, hfix]
  refine ⟨hmain, ?_⟩
  rw [hmain]
  rfl

set_option maxRecDepth 8000 in
/-- C6 witness: a concrete two-competition body with explicit names, keys
and RFC 3339 cutoff timestamps round-trips into the parsed structure. -/
theorem fixtures_two_competitions_preserved_witness :
    GetTodayFixturesJSON (NewAPIClient "k") "soccer" 5 ⟨2026, 10, 11⟩
        (constTransport ⟨200, "200 OK",
          "\x7b\"competitions\":[\x7b\"name\":\"LaLiga\",\"key\":\"es\",\"events\":[\x7b\"name\":\"A v B\",\"key\":\"avb\",\"cutoffTime\":\"2026-10-11T12:30:00Z\"\x7d]\x7d,\x7b\"name\":\"EPL\",\"key\":\"uk\",\"events\":[\x7b\"name\":\"C v D\",\"key\":\"cvd\",\"cutoffTime\":\"2026-10-11T15:00:00+02:00\"\x7d]\x7d]\x7d"⟩) =
      ⟨NewAPIClient "k",
        [fixturesRequest (NewAPIClient "k") "soccer" 5 ⟨2026, 10, 11⟩],
        some ⟨[⟨"LaLiga", "es", default,
                 [⟨0, default, default, ⟨⟩, "", ⟨⟩, "A v B", "avb",
                   ⟨2026, 10, 11, 12, 30, 0, [], 0⟩, ""⟩], default⟩,
               ⟨"EPL", "uk", default,
                 [⟨0, default, default, ⟨⟩, "", ⟨⟩, "C v D", "cvd",
                   ⟨2026, 10, 11, 15, 0, 0, [], 120⟩, ""⟩], default⟩]⟩,
        none⟩ :=
  (fixtures_two_competitions_preserved (NewAPIClient "k") "soccer" 5
    ⟨2026, 10, 11⟩
    (constTransport ⟨200, "200 OK",
      "\x7b\"competitions\":[\x7b\"name\":\"LaLiga\",\"key\":\"es\",\"events\":[\x7b\"name\":\"A v B\",\"key\":\"avb\",\"cutoffTime\":\"2026-10-11T12:30:00Z\"\x7d]\x7d,\x7b\"name\":\"EPL\",\"key\":\"uk\",\"events\":[\x7b\"name\":\"C v D\",\"key\":\"cvd\",\"cutoffTime\":\"2026-10-11T15:00:00+02:00\"\x7d]\x7d]\x7d"⟩)
    ⟨200, "200 OK",
      "\x7b\"competitions\":[\x7b\"name\":\"LaLiga\",\"key\":\"es\",\"events\":[\x7b\"name\":\"A v B\",\"key\":\"avb\",\"cutoffTime\":\"2026-10-11T12:30:00Z\"\x7d]\x7d,\x7b\"name\":\"EPL\",\"key\":\"uk\",\"events\":[\x7b\"name\":\"C v D\",\"key\":\"cvd\",\"cutoffTime\":\"2026-10-11T15:00:00+02:00\"\x7d]\x7d]\x7d"⟩
    "LaLiga" "es" "EPL" "uk" "A v B" "avb" "C v D" "cvd"
    "2026-10-11T12:30:00Z" "2026-10-11T15:00:00+02:00"
    ⟨2026, 10, 11, 12, 30, 0, [], 0⟩ ⟨2026, 10, 11, 15, 0, 0, [], 120⟩
    rfl rfl rfl rfl rfl).1

end Cloudbet
